import Mathlib

/-!
A shallow embedding of the view, stack and plot data model of the imagen
repository (src/imagen/views.py, src/dataviews/plots.py,
src/dataviews/transform.py), together with theorems settling the
specification claims about it.  Machine reals are modelled by the
rationals and numpy arrays by lists of rows.  Parts of the repository
that the claims depend on but that are not present under src
(boundingregion.py, sheetcoords.py, the sheetviews module) are modelled
from the specification; their doc comments say so explicitly.
-/

/-- Embeds a bounding region in continuous sheet coordinates, as produced
by boundingregion.BoundingBox: a rectangle (left, bottom, right, top). -/
structure Bounds where
  left : ℚ
  bottom : ℚ
  right : ℚ
  top : ℚ
deriving DecidableEq, Repr

/-- The lbrt() accessor of a bounding region. -/
def Bounds.lbrt (bb : Bounds) : ℚ × ℚ × ℚ × ℚ :=
  (bb.left, bb.bottom, bb.right, bb.top)

/-- Modelled from the spec: BoundingBox(points=((x1,y1),(x2,y2))) from
boundingregion.py (not under src) builds the axis-aligned rectangle in
continuous coordinates spanning the given corner points. -/
def boundingBoxOfPoints (p1 p2 : ℚ × ℚ) : Bounds :=
  { left := min p1.1 p2.1, bottom := min p1.2 p2.2,
    right := max p1.1 p2.1, top := max p1.2 p2.2 }

/-- The floor of a rational number, computed by floor division of the
numerator by the denominator so that concrete values evaluate. -/
def ratFloor (q : ℚ) : Int := Int.fdiv q.num q.den

/-- The ceiling of a rational number. -/
def ratCeil (q : ℚ) : Int := -(ratFloor (-q))

/-- A 2-D numpy array of machine reals, modelled as a list of rows. -/
abbrev NpArray := List (List ℚ)

/-- The numpy shape (rows, cols) of a 2-D array. -/
def npShape (a : NpArray) : Nat × Nat := (a.length, (a.headD []).length)

/-- Embeds the SheetView objects of src/imagen/views.py: the data payload,
the bounding region, the densities stored by the SheetCoordinateSystem
base class, and the cyclic-range, style and metadata records.  Style and
metadata are opaque to every claim and are represented by strings. -/
structure SheetView where
  data : NpArray
  bounds : Bounds
  xdensity : ℚ
  ydensity : ℚ
  cyclic_range : Option ℚ
  style : String
  metadata : String
  title : String
  roi_bounds : Bounds
deriving DecidableEq, Repr

/-- Embeds SheetView.__init__ (src/imagen/views.py lines 137-146): a
missing data payload defaults to the 1-by-1 array [[0]]; with
(dim1, dim2) = data.shape the code sets xdensity = dim1 / (r - l) and
ydensity = dim2 / (t - b); a missing roi defaults to the full bounds. -/
def mkSheetView (dataArg : Option NpArray) (bounds : Bounds)
    (cyclic : Option ℚ) (style meta title : String)
    (roiArg : Option Bounds) : SheetView :=
  let data := match dataArg with | none => [[0]] | some d => d
  let dim1 := (npShape data).1
  let dim2 := (npShape data).2
  { data := data, bounds := bounds,
    xdensity := (dim1 : ℚ) / (bounds.right - bounds.left),
    ydensity := (dim2 : ℚ) / (bounds.top - bounds.bottom),
    cyclic_range := cyclic, style := style, metadata := meta,
    title := title, roi_bounds := roiArg.getD bounds }

/-- Resolves one endpoint of a Python slice against a list of length n:
a negative index counts from the end and the result is clamped to the
interval from 0 to n. -/
def pySliceIdx (n : Nat) (i : Int) : Nat :=
  let j := if i < 0 then i + n else i
  (max 0 (min j (n : Int))).toNat

/-- Python list slicing l[start:stop] with unit step. -/
def pySlice (l : List α) (start stop : Int) : List α :=
  let s := pySliceIdx l.length start
  let e := pySliceIdx l.length stop
  (l.drop s).take (e - s)

/-- Python list indexing l[i]: a negative index counts from the end and an
index out of range raises an IndexError. -/
def pyIndex (l : List α) (i : Int) : Except String α :=
  let j := if i < 0 then i + l.length else i
  if h : 0 ≤ j ∧ j.toNat < l.length then .ok (l.get ⟨j.toNat, h.2⟩)
  else .error "IndexError: index out of bounds"

/-- Embeds Slice.submatrix: matrix[r1:r2, c1:c2], numpy basic slicing
along both axes, which follows Python slice semantics. -/
def submatrix (m : NpArray) (r1 r2 c1 c2 : Int) : NpArray :=
  (pySlice m r1 r2).map (fun row => pySlice row c1 c2)

/-- Modelled from the spec: SheetCoordinateSystem.sheet2matrix from
sheetcoords.py (not under src) maps a continuous sheet point to the
fractional (row, col) matrix coordinates, rows growing downward from the
top edge at ydensity per unit and columns growing rightward from the left
edge at xdensity per unit. -/
def sheet2matrix (b : Bounds) (xd yd : ℚ) (x y : ℚ) : ℚ × ℚ :=
  ((b.top - y) * yd, (x - b.left) * xd)

/-- Modelled from the spec: point-to-index conversion with deterministic
rounding (sheet2matrixidx): the floor of the fractional coordinates. -/
def sheet2matrixidx (b : Bounds) (xd yd : ℚ) (x y : ℚ) : Int × Int :=
  (ratFloor (sheet2matrix b xd yd x y).1, ratFloor (sheet2matrix b xd yd x y).2)

/-- Modelled from the spec: region-to-sub-array extraction, first step.
Slice converts a requested bounding rectangle into the index quadruple
(row-start, row-stop, col-start, col-stop), rounding each fractional
matrix coordinate to the nearest covered cell edge. -/
def boundsToSlicespec (req : Bounds) (b : Bounds) (xd yd : ℚ) :
    Int × Int × Int × Int :=
  let tl := sheet2matrix b xd yd req.left req.top
  let br := sheet2matrix b xd yd req.right req.bottom
  (ratCeil (tl.1 - 1/2), ratFloor (br.1 + 1/2),
   ratCeil (tl.2 - 1/2), ratFloor (br.2 + 1/2))

/-- Modelled from the spec: Slice(bounds, scs).submatrix(data), the
region-to-sub-array extraction used by slicing and by the roi property. -/
def sliceSubmatrix (req : Bounds) (b : Bounds) (xd yd : ℚ)
    (data : NpArray) : NpArray :=
  let sp := boundsToSlicespec req b xd yd
  submatrix data sp.1 sp.2.1 sp.2.2.1 sp.2.2.2

/-- One component of an index tuple passed to SheetView.__getitem__:
either a scalar sheet coordinate or a slice range. -/
inductive Coord where
  | scalar (q : ℚ)
  | range (start stop : Option ℚ)
deriving DecidableEq, Repr

/-- The result of SheetView.__getitem__: a sampled value or a sub-view. -/
inductive GetItemResult where
  | value (q : ℚ)
  | view (v : SheetView)
deriving DecidableEq, Repr

/-- Embeds SheetView.__getitem__ (src/imagen/views.py lines 149-171) for
an index tuple of two coordinates.  Two scalars sample the array at the
converted matrix index; two slice ranges clamp the requested range to the
bounds with max and min, build the bounding box of the clamped corner
points and return a new SheetView over the extracted sub-array,
passing on cyclic_range, style and metadata; a mixed scalar and slice
pair raises an IndexError. -/
def sheetGetItem (v : SheetView) (c1 c2 : Coord) :
    Except String GetItemResult :=
  match c1, c2 with
  | .scalar x, .scalar y =>
    let idx := sheet2matrixidx v.bounds v.xdensity v.ydensity x y
    match pyIndex v.data idx.1 with
    | .error e => .error e
    | .ok row =>
      match pyIndex row idx.2 with
      | .error e => .error e
      | .ok q => .ok (.value q)
  | .range xs xe, .range ys ye =>
    let l := v.bounds.left
    let b := v.bounds.bottom
    let r := v.bounds.right
    let t := v.bounds.top
    let xstart := match xs with | none => l | some q => max l q
    let xend := match xe with | none => r | some q => min r q
    let ystart := match ys with | none => b | some q => max b q
    let yend := match ye with | none => t | some q => min t q
    let nb := boundingBoxOfPoints (xstart, ystart) (xend, yend)
    .ok (.view (mkSheetView
      (some (sliceSubmatrix nb v.bounds v.xdensity v.ydensity v.data))
      nb v.cyclic_range v.style v.metadata "" none))
  | _, _ => .error "Indexing requires x- and y-slice ranges."

/-- Extracts the data array of a view result, if the computation returned
one. -/
def getViewData : Except String GetItemResult → Option NpArray
  | .ok (.view v) => some v.data
  | _ => none

/-- The numpy arr.min() aggregate over a 2-D array (0 on an empty array,
where numpy would raise instead). -/
def npMin (m : NpArray) : ℚ :=
  match m.flatten with
  | [] => 0
  | x :: xs => xs.foldl min x

/-- The numpy arr.max() aggregate over a 2-D array. -/
def npMax (m : NpArray) : ℚ :=
  match m.flatten with
  | [] => 0
  | x :: xs => xs.foldl max x

/-- Embeds SheetView.normalize (src/imagen/views.py lines 174-183): the
norm factor defaults to the cyclic range and then to the data range, in
which latter case the requested min and max are kept, otherwise they are
reset to 0 and 1; the data is shifted by its minimum, divided by the norm
factor, rescaled and offset; the result is rebuilt through the SheetView
constructor with the same bounds, cyclic range, style, metadata and roi. -/
def sheetViewNormalize (v : SheetView) (mn mx : ℚ) (nfArg : Option ℚ) :
    SheetView :=
  let nf0 := match nfArg with | none => v.cyclic_range | some q => some q
  let nmm : ℚ × ℚ × ℚ := match nf0 with
    | none => (npMax v.data - npMin v.data, mn, mx)
    | some q => (q, 0, 1)
  let dmin := npMin v.data
  let norm := v.data.map (List.map
    (fun x => ((x - dmin) / nmm.1) * |nmm.2.2 - nmm.2.1| + nmm.2.1))
  mkSheetView (some norm) v.bounds v.cyclic_range v.style v.metadata ""
    (some v.roi_bounds)

/-- The .N property of a SheetView: normalize with default arguments. -/
def sheetViewN (v : SheetView) : SheetView := sheetViewNormalize v 0 1 none

/-- The numpy arr.clip(lo, hi) of a single value. -/
def clipQ (lo hi q : ℚ) : ℚ := min hi (max lo q)

/-- The numpy arr.clip(lo, hi) of a 2-D array, element by element. -/
def npClip (m : NpArray) (lo hi : ℚ) : NpArray :=
  m.map (List.map (clipQ lo hi))

/-- Multiplication of a 2-D array by a scalar, element by element. -/
def npScale (m : NpArray) (c : ℚ) : NpArray :=
  m.map (List.map (fun x => x * c))

/-- The numpy np.ones(shape) array. -/
def npOnes (shape : Nat × Nat) : NpArray :=
  List.replicate shape.1 (List.replicate shape.2 1)

/-- Truncation of a rational toward zero, the behaviour of the Python
int() conversion applied to a float. -/
def truncQ (q : ℚ) : Int := if q < 0 then ratCeil q else ratFloor q

/-- Embeds colorsys.hsv_to_rgb from the Python standard library, the
element-wise HSV to RGB conversion that transform.py vectorizes with
np.vectorize. -/
def hsv_to_rgb (h s v : ℚ) : ℚ × ℚ × ℚ :=
  if s = 0 then (v, v, v)
  else
    let i := truncQ (h * 6)
    let f := h * 6 - i
    let p := v * (1 - s)
    let q := v * (1 - s * f)
    let t := v * (1 - s * (1 - f))
    let j := i % 6
    if j = 0 then (v, t, p)
    else if j = 1 then (q, v, p)
    else if j = 2 then (p, v, q)
    else if j = 3 then (p, q, v)
    else if j = 4 then (t, p, q)
    else (q, p, v)

/-- The vectorized hsv_to_rgb applied across three equally shaped channel
arrays, followed by np.dstack: the output holds one RGB triple per cell. -/
def matHsvToRgb (h s v : NpArray) : List (List (ℚ × ℚ × ℚ)) :=
  List.zipWith
    (fun hr svr => List.zipWith (fun x yz => hsv_to_rgb x yz.1 yz.2) hr svr)
    h (List.zipWith (fun sr vr => sr.zip vr) s v)

/-- The parameters of the HCS operation (src/dataviews/transform.py). -/
structure HCSParams where
  S_multiplier : ℚ
  C_multiplier : ℚ
  flipSC : Bool
deriving DecidableEq, Repr

/-- Embeds HCS._process (src/dataviews/transform.py lines 42-61): the
first two overlay layers are hue and confidence, the optional third is
strength (all ones when absent); mismatched hue and confidence shapes
raise; the hue channel is range-normalized then clipped to the unit
interval, confidence and strength are scaled by their multipliers and
clipped; flipSC swaps the roles of the s and v channels; the result is
the RGB data array of the output view. -/
def hcsProcess (ps : HCSParams) (overlay : List SheetView) :
    Except String (List (List (ℚ × ℚ × ℚ))) :=
  match pyIndex overlay 0 with
  | .error e => .error e
  | .ok hue =>
    match pyIndex overlay 1 with
    | .error e => .error e
    | .ok confidence =>
      let strength_data :=
        if overlay.length = 3 then ((overlay.get? 2).getD hue).data
        else npOnes (npShape hue.data)
      if npShape hue.data ≠ npShape confidence.data then
        .error "Cannot combine plots with different shapes"
      else
        let h := npClip (sheetViewN hue).data 0 1
        let s := npClip (npScale confidence.data ps.C_multiplier) 0 1
        let v := npClip (npScale strength_data ps.S_multiplier) 0 1
        let hsv : NpArray × NpArray × NpArray :=
          if ps.flipSC then (h, v, npClip s 0 1) else (h, s, v)
        .ok (matHsvToRgb hsv.1 hsv.2.1 hsv.2.2)

/-- The matplotlib handles that SheetViewPlot.update_frame mutates: the
image artist data, its color limits and the title text. -/
structure PlotHandles where
  imData : NpArray
  imClim : ℚ × ℚ
  titleText : String
deriving DecidableEq, Repr

/-- Embeds the state of a SheetViewPlot renderer
(src/dataviews/plots.py): the stack values in order, and the parameters
consulted by update_frame. -/
structure SheetViewPlot where
  stack : List SheetView
  normalize_individually : Bool
  show_title : Bool
  zorder : Nat
deriving DecidableEq, Repr

/-- Modelled from the spec: the range aggregate of a single view, the
min and max of its data, used for color normalization (the range
property of the sheetviews module, which is not under src). -/
def svRange (v : SheetView) : ℚ × ℚ := (npMin v.data, npMax v.data)

/-- Embeds SheetViewPlot.update_frame (src/dataviews/plots.py lines
452-464): the frame index is clamped to the last available frame, that
frame is fetched from the stack values and the image handle data is
replaced; the color limits are updated only under
normalize_individually, and the title text only when the title is shown
and the renderer is at zorder 0. -/
def updateFrame (p : SheetViewPlot) (hs : PlotHandles) (n : Nat) :
    Except String PlotHandles :=
  let len : Int := p.stack.length
  let n2 : Int := if (n : Int) < len then n else len - 1
  match pyIndex p.stack n2 with
  | .error e => .error e
  | .ok sv =>
    .ok { imData := sv.data,
          imClim := if p.normalize_individually then svRange sv else hs.imClim,
          titleText := if p.show_title && p.zorder == 0 then sv.title
                       else hs.titleText }

/-- Embeds a single SheetLayer inside an overlay, reduced to the fields
the overlay machinery consults: an opaque payload and its bounds. -/
structure SLayer where
  payload : Nat
  bounds : Bounds
deriving DecidableEq, Repr

/-- Embeds a SheetOverlay (src/imagen/views.py): the shared bounds and
the ordered list of layered views. -/
structure SheetOverlay where
  bounds : Bounds
  data : List SLayer
deriving DecidableEq, Repr

/-- Embeds SheetOverlay.add (src/imagen/views.py lines 82-88): a layer
whose lbrt tuple differs from the overlay bounds raises, otherwise the
layer is appended to the data list. -/
def overlayAdd (ov : SheetOverlay) (layer : SLayer) :
    Except String SheetOverlay :=
  if layer.bounds.lbrt ≠ ov.bounds.lbrt then
    .error "Layer must have same bounds as SheetOverlay"
  else .ok { ov with data := ov.data ++ [layer] }

/-- Embeds SheetOverlay.set (src/imagen/views.py lines 90-97): reset the
data list and add every given layer in order. -/
def overlaySet (ov : SheetOverlay) (layers : List SLayer) :
    Except String SheetOverlay :=
  layers.foldlM (fun acc l => overlayAdd acc l) { ov with data := [] }

/-- Embeds SheetOverlay.__init__ (src/imagen/views.py lines 78-80):
construct with an empty data list over the given bounds, then set the
given layers. -/
def mkSheetOverlay (layers : List SLayer) (bounds : Bounds) :
    Except String SheetOverlay :=
  overlaySet { bounds := bounds, data := [] } layers

/-- Embeds an element held by a SheetStack, reduced to what _item_check
consults: the concrete Python type, represented by a numeric tag, and
the bounds. -/
structure SElem where
  tag : Nat
  bounds : Bounds
deriving DecidableEq, Repr

/-- Embeds a SheetStack (src/imagen/views.py): the stack bounds, unset
until the first insertion, and the ordered mapping from keys to
elements.  Keys are reduced to numbers; the sort order of the underlying
NdMapping is irrelevant to the checks and is not modelled. -/
structure SheetStack where
  bounds : Option Bounds
  items : List (Nat × SElem)
deriving DecidableEq, Repr

/-- The type property of a SheetStack: None when empty, otherwise the
class of the top (most recently inserted) entry. -/
def stackType (s : SheetStack) : Option Nat :=
  (s.items.getLast?).map (fun kv => kv.2.tag)

/-- Embeds SheetStack._item_check (src/imagen/views.py lines 290-297)
followed by the insertion itself: unset bounds are adopted from the
element; an lbrt mismatch with the stack bounds raises; a type tag
differing from the stack type raises; otherwise the element is added. -/
def stackAdd (s : SheetStack) (key : Nat) (e : SElem) :
    Except String SheetStack :=
  let bnds := match s.bounds with | none => e.bounds | some b => b
  if e.bounds.lbrt ≠ bnds.lbrt then
    .error "All SheetLayer elements must have matching bounds."
  else if (stackType s).isSome ∧ stackType s ≠ some e.tag then
    .error "SheetStack must only contain one type of SheetLayer."
  else .ok { bounds := some bnds, items := s.items ++ [(key, e)] }

/-- The empty SheetStack. -/
def emptyStack : SheetStack := { bounds := none, items := [] }

/-- A sequence of insertions into a SheetStack, failing on the first
rejected element. -/
def stackAddAll (s : SheetStack) (ops : List (Nat × SElem)) :
    Except String SheetStack :=
  ops.foldlM (fun acc ke => stackAdd acc ke.1 ke.2) s

/-- The homogeneity invariant of a SheetStack: every entry has the same
type tag as the stack type and the same lbrt tuple as the stack bounds. -/
def stackInv (s : SheetStack) : Prop :=
  ∀ kv ∈ s.items,
    (∃ t, stackType s = some t ∧ kv.2.tag = t) ∧
    (∃ b, s.bounds = some b ∧ kv.2.bounds.lbrt = b.lbrt)

/-- Embeds a ProjectionGrid (src/imagen/views.py): the bounds, the
densities computed by __init__ and the mapping contents.  Values are
opaque and reduced to numbers. -/
structure ProjectionGrid where
  bounds : Bounds
  xdensity : ℚ
  ydensity : ℚ
  items : List ((ℚ × ℚ) × Nat)
deriving DecidableEq, Repr

/-- Embeds ProjectionGrid.__init__ (src/imagen/views.py lines 384-391):
densities from the given shape (dim1, dim2), computed exactly as in
SheetView.__init__. -/
def mkProjectionGrid (bounds : Bounds) (shape : Nat × Nat) :
    ProjectionGrid :=
  { bounds := bounds,
    xdensity := (shape.1 : ℚ) / (bounds.right - bounds.left),
    ydensity := (shape.2 : ℚ) / (bounds.top - bounds.bottom),
    items := [] }

/-- Modelled from the spec: BoundingBox.contains from boundingregion.py
(not under src) tests whether a point lies within the rectangle,
boundaries included. -/
def Bounds.containsPt (bb : Bounds) (x y : ℚ) : Bool :=
  bb.left ≤ x ∧ x ≤ bb.right ∧ bb.bottom ≤ y ∧ y ≤ bb.top

/-- Modelled from the spec: index-to-point conversion (matrixidx2sheet
from sheetcoords.py, not under src) returns the continuous center of the
cell at a matrix index. -/
def matrixidx2sheet (b : Bounds) (xd yd : ℚ) (row col : Int) : ℚ × ℚ :=
  (b.left + ((col : ℚ) + 1/2) / xd, b.top - ((row : ℚ) + 1/2) / yd)

/-- Modelled from the spec: closest_cell_center from sheetcoords.py (not
under src) snaps a sheet point to the center of the nearest covered
cell: point-to-index conversion followed by index-to-point conversion. -/
def closestCellCenter (b : Bounds) (xd yd : ℚ) (x y : ℚ) : ℚ × ℚ :=
  let idx := sheet2matrixidx b xd yd x y
  matrixidx2sheet b xd yd idx.1 idx.2

/-- Embeds ProjectionGrid._transform_indices and _transform_value
(src/imagen/views.py lines 406-424) for a scalar coordinate pair:
dimension 0 snaps the x value through closest_cell_center (x, 0) and
dimension 1 snaps the y value through closest_cell_center (0, y). -/
def transformIndices (g : ProjectionGrid) (coords : ℚ × ℚ) : ℚ × ℚ :=
  ((closestCellCenter g.bounds g.xdensity g.ydensity coords.1 0).1,
   (closestCellCenter g.bounds g.xdensity g.ydensity 0 coords.2).2)

/-- Embeds ProjectionGrid._add_item (src/imagen/views.py lines 394-403):
when the coordinate is outside the grid bounds a warning is emitted,
then the coordinates are transformed and the item is inserted into the
mapping regardless. -/
def gridAddItem (g : ProjectionGrid) (coords : ℚ × ℚ) (d : Nat) :
    List String × ProjectionGrid :=
  let warns :=
    if !(g.bounds.containsPt coords.1 coords.2) then
      ["Specified coordinate is outside grid bounds, data could not be added"]
    else []
  let coords2 := transformIndices g coords
  (warns, { g with items := g.items ++ [(coords2, d)] })

/-- The data list of one overlay object, its layers reduced to opaque
payloads; the heap cell content mutated by SheetPlot._collapse. -/
abbrev OvData := List Nat

/-- Embeds copy.deepcopy of a stack of overlays for the channel
reduction step: overlays are mutable objects, modelled as cells of a
heap indexed by position, and a stack holds references to cells.  The
deep copy allocates one fresh cell per stack entry, each holding a copy
of the data of the referenced cell, and returns the new heap together
with the stack of fresh references. -/
def deepcopyStack (heap : List OvData) (ids : List Nat) :
    List OvData × List Nat :=
  (heap ++ ids.map (fun i => heap.getD i []),
   (List.range ids.length).map (fun k => heap.length + k))

/-- Embeds the net effect of SheetPlot._collapse (src/dataviews/plots.py
lines 490-515) on one overlay object: its data list is replaced in place
by the collapsed list.  The suffix-pattern matching and the
registry-supplied channel operation are abstracted into the collapse
function. -/
def collapseOverlay (collapseFn : OvData → OvData) (heap : List OvData)
    (i : Nat) : List OvData :=
  heap.set i (collapseFn (heap.getD i []))

/-- Embeds SheetPlot._collapse_channels (src/dataviews/plots.py lines
518-543): a stack whose element type is not an overlay is returned as
is; with no registered channel operations the input stack is returned
as is; otherwise the stack is deep copied and every overlay of the copy
has its applicable channel reductions applied in place. -/
def collapseChannels (isOverlayStack : Bool) (channelKeys : List String)
    (collapseFn : OvData → OvData) (heap : List OvData)
    (stackIds : List Nat) : List OvData × List Nat :=
  if !isOverlayStack then (heap, stackIds)
  else if channelKeys.isEmpty then (heap, stackIds)
  else
    let hc := deepcopyStack heap stackIds
    (hc.2.foldl (fun h i => collapseOverlay collapseFn h i) hc.1, hc.2)

theorem pyIndex_ok_of_lt {α : Type} (l : List α) (i : Int) (h0 : 0 ≤ i)
    (h1 : i.toNat < l.length) :
    pyIndex l i = .ok (l.get ⟨i.toNat, h1⟩) := by
  have hneg : ¬ i < 0 := by omega
  simp only [pyIndex, hneg, if_false]
  rw [dif_pos ⟨h0, h1⟩]

/-- C1: the claim states that xdensity = cols/(r-l) and
ydensity = rows/(t-b).  On the 1-by-2 array [[1, 2]] over the bounds
(0, 0, 1, 1) the constructor instead sets the densities from the swapped
dimensions: xdensity comes out as rows/(r-l) = 1 although
cols/(r-l) = 2, and ydensity comes out as cols/(t-b) = 2 although
rows/(t-b) = 1. -/
theorem C1_density_formula_swapped :
    (mkSheetView (some [[1, 2]]) ⟨0, 0, 1, 1⟩ none "" "" "" none).xdensity = 1 ∧
    (mkSheetView (some [[1, 2]]) ⟨0, 0, 1, 1⟩ none "" "" "" none).ydensity = 2 ∧
    ((npShape [[1, 2]]).2 : ℚ) / (1 - 0) = 2 ∧
    ((npShape [[1, 2]]).1 : ℚ) / (1 - 0) = 1 := by
  refine ⟨?_, ?_, ?_, ?_⟩ <;> norm_num [mkSheetView, npShape]

/-- C10: constructing a SheetView with data None over non-degenerate
bounds yields the 1-by-1 data array [[0]] and densities computed from
that shape: both numerators are 1. -/
theorem C10_none_data_defaults (bounds : Bounds)
    (h1 : bounds.left < bounds.right) (h2 : bounds.bottom < bounds.top) :
    (mkSheetView none bounds none "" "" "" none).data = [[0]] ∧
    (mkSheetView none bounds none "" "" "" none).xdensity
      = 1 / (bounds.right - bounds.left) ∧
    (mkSheetView none bounds none "" "" "" none).ydensity
      = 1 / (bounds.top - bounds.bottom) := by
  refine ⟨rfl, ?_, ?_⟩ <;> simp [mkSheetView, npShape]

theorem C10_witness :
    (mkSheetView none ⟨0, 0, 2, 1⟩ none "" "" "" none).data = [[0]] ∧
    (mkSheetView none ⟨0, 0, 2, 1⟩ none "" "" "" none).xdensity = 1 / (2 - 0) ∧
    (mkSheetView none ⟨0, 0, 2, 1⟩ none "" "" "" none).ydensity = 1 / (1 - 0) :=
  C10_none_data_defaults ⟨0, 0, 2, 1⟩ (by decide) (by decide)

set_option maxHeartbeats 1600000 in
/-- C2: the claim states that slicing a view with ranges describing a
region entirely outside its bounds yields an empty result.  On the
1-by-3 view [[1, 2, 3]] over the bounds (0, 0, 1, 1), the x-range
[2, 3] lies entirely to the right of the bounds, yet the slice returns
a view whose data is the non-empty [[2]]: the clamped degenerate region
at the right edge is mapped to column indices through the xdensity that
the constructor derived from the row count. -/
theorem C2_outside_region_not_empty :
    getViewData (sheetGetItem
        (mkSheetView (some [[1, 2, 3]]) ⟨0, 0, 1, 1⟩ none "" "" "" none)
        (.range (some 2) (some 3)) (.range none none)) = some [[2]] := by
  norm_num [getViewData, sheetGetItem, mkSheetView, npShape,
    boundingBoxOfPoints, sliceSubmatrix, boundsToSlicespec, sheet2matrix,
    ratCeil, ratFloor, submatrix, pySlice, pySliceIdx, Int.fdiv]
  decide

set_option maxHeartbeats 1600000 in
/-- C8: the claim states that slicing a view with ranges covering its
full bounds returns a view with the original data.  On the 1-by-2 view
[[1, 2]] over the bounds (0, 0, 1, 1), slicing with two full ranges
returns a view whose data is [[1]]: the swapped densities make the
full-bounds region map to the index rectangle rows 0:2, cols 0:1
instead of rows 0:1, cols 0:2. -/
theorem C8_full_bounds_roundtrip_fails :
    getViewData (sheetGetItem
        (mkSheetView (some [[1, 2]]) ⟨0, 0, 1, 1⟩ none "" "" "" none)
        (.range none none) (.range none none)) = some [[1]] ∧
    (mkSheetView (some [[1, 2]]) ⟨0, 0, 1, 1⟩ none "" "" "" none).data
      = [[1, 2]] := by
  refine ⟨?_, rfl⟩
  norm_num [getViewData, sheetGetItem, mkSheetView, npShape,
    boundingBoxOfPoints, sliceSubmatrix, boundsToSlicespec, sheet2matrix,
    ratCeil, ratFloor, submatrix, pySlice, pySliceIdx, Int.fdiv]

/-- C3: for a frame index n at or beyond the number of frames,
update_frame mutates the handles exactly as it would for the last valid
index, and raises no error when the stack is non-empty. -/
theorem C3_update_frame_clamps (p : SheetViewPlot) (hs : PlotHandles)
    (n : Nat) (hn : p.stack.length ≤ n) :
    updateFrame p hs n = updateFrame p hs (p.stack.length - 1) ∧
    (0 < p.stack.length → (updateFrame p hs n).isOk = true) := by
  have hnot : ¬ ((n : Int) < (p.stack.length : Int)) := by
    simp only [not_lt]
    exact_mod_cast hn
  have harg : (if ((p.stack.length - 1 : Nat) : Int) < (p.stack.length : Int)
      then ((p.stack.length - 1 : Nat) : Int)
      else (p.stack.length : Int) - 1) = (p.stack.length : Int) - 1 := by
    rcases Nat.eq_zero_or_pos p.stack.length with h0 | hpos
    · rw [h0]; norm_num
    · rw [if_pos (by omega)]; omega
  constructor
  · simp only [updateFrame, hnot, if_false, harg]
  · intro hpos
    simp only [updateFrame, hnot, if_false]
    have h0 : (0 : Int) ≤ (p.stack.length : Int) - 1 := by omega
    have h1 : ((p.stack.length : Int) - 1).toNat < p.stack.length := by omega
    rw [pyIndex_ok_of_lt p.stack _ h0 h1]
    rfl

theorem C3_witness :
    (updateFrame ⟨[mkSheetView none ⟨0, 0, 1, 1⟩ none "" "" "" none],
        false, false, 0⟩ ⟨[], (0, 0), ""⟩ 5
      = updateFrame ⟨[mkSheetView none ⟨0, 0, 1, 1⟩ none "" "" "" none],
        false, false, 0⟩ ⟨[], (0, 0), ""⟩ 0) ∧
    (0 < 1 → (updateFrame ⟨[mkSheetView none ⟨0, 0, 1, 1⟩ none "" "" "" none],
        false, false, 0⟩ ⟨[], (0, 0), ""⟩ 5).isOk = true) := by
  simpa using C3_update_frame_clamps
    ⟨[mkSheetView none ⟨0, 0, 1, 1⟩ none "" "" "" none], false, false, 0⟩
    ⟨[], (0, 0), ""⟩ 5 (by decide)

/-- C9: adding an item to a ProjectionGrid at a coordinate outside the
grid bounds emits the warning that the data could not be added, yet the
item is transformed and inserted into the mapping regardless. -/
theorem C9_outside_add_warns_and_inserts (g : ProjectionGrid)
    (coords : ℚ × ℚ) (d : Nat)
    (h : g.bounds.containsPt coords.1 coords.2 = false) :
    (gridAddItem g coords d).1 =
      ["Specified coordinate is outside grid bounds, data could not be added"] ∧
    (transformIndices g coords, d) ∈ (gridAddItem g coords d).2.items := by
  constructor
  · simp [gridAddItem, h]
  · simp [gridAddItem]

theorem C9_witness :
    (gridAddItem (mkProjectionGrid ⟨0, 0, 1, 1⟩ (1, 1)) (2, 0) 7).1 =
      ["Specified coordinate is outside grid bounds, data could not be added"] ∧
    (transformIndices (mkProjectionGrid ⟨0, 0, 1, 1⟩ (1, 1)) (2, 0), 7)
      ∈ (gridAddItem (mkProjectionGrid ⟨0, 0, 1, 1⟩ (1, 1)) (2, 0) 7).2.items :=
  C9_outside_add_warns_and_inserts (mkProjectionGrid ⟨0, 0, 1, 1⟩ (1, 1))
    (2, 0) 7 (by decide)

theorem overlaySet_ok_of_all (bounds : Bounds) (pre layers : List SLayer)
    (hall : ∀ l ∈ layers, l.bounds.lbrt = bounds.lbrt) :
    layers.foldlM (fun acc l => overlayAdd acc l)
        ({ bounds := bounds, data := pre } : SheetOverlay)
      = .ok { bounds := bounds, data := pre ++ layers } := by
  induction layers generalizing pre with
  | nil => simp only [List.foldlM_nil, List.append_nil]; rfl
  | cons x xs ih =>
    have hx : x.bounds.lbrt = bounds.lbrt := hall x (by simp)
    rw [List.foldlM_cons]
    rw [show overlayAdd { bounds := bounds, data := pre } x
        = .ok { bounds := bounds, data := pre ++ [x] } from by
      simp [overlayAdd, hx]]
    show xs.foldlM (fun acc l => overlayAdd acc l)
        ({ bounds := bounds, data := pre ++ [x] } : SheetOverlay) = _
    rw [ih (pre ++ [x]) (fun l hl => hall l (by simp [hl]))]
    simp

theorem overlaySet_error_of_bad (bounds : Bounds) (pre layers : List SLayer)
    (hbad : ∃ l ∈ layers, l.bounds.lbrt ≠ bounds.lbrt) :
    ∃ msg, layers.foldlM (fun acc l => overlayAdd acc l)
        ({ bounds := bounds, data := pre } : SheetOverlay) = .error msg := by
  induction layers generalizing pre with
  | nil => simp at hbad
  | cons x xs ih =>
    by_cases hx : x.bounds.lbrt = bounds.lbrt
    · have hbad2 : ∃ l ∈ xs, l.bounds.lbrt ≠ bounds.lbrt := by
        rcases hbad with ⟨l, hl, hne⟩
        rcases List.mem_cons.mp hl with rfl | hl2
        · exact absurd hx hne
        · exact ⟨l, hl2, hne⟩
      rw [List.foldlM_cons]
      rw [show overlayAdd { bounds := bounds, data := pre } x
          = .ok { bounds := bounds, data := pre ++ [x] } from by
        simp [overlayAdd, hx]]
      exact ih (pre ++ [x]) hbad2
    · rw [List.foldlM_cons]
      rw [show overlayAdd { bounds := bounds, data := pre } x
          = .error "Layer must have same bounds as SheetOverlay" from by
        simp [overlayAdd, hx]]
      exact ⟨_, rfl⟩

/-- C6: adding a layer whose lbrt tuple differs from the overlay bounds
raises the bounds-mismatch error, a layer with equal bounds is appended
without error, and the same holds during construction from a list of
layers: any mismatched layer makes the constructor fail and an
all-matching list is accepted, yielding exactly that data list. -/
theorem C6_overlay_bounds_checked (ov : SheetOverlay) (layer : SLayer)
    (layers : List SLayer) (bounds : Bounds) :
    (layer.bounds.lbrt ≠ ov.bounds.lbrt →
      overlayAdd ov layer
        = .error "Layer must have same bounds as SheetOverlay") ∧
    (layer.bounds.lbrt = ov.bounds.lbrt →
      overlayAdd ov layer
        = .ok { bounds := ov.bounds, data := ov.data ++ [layer] }) ∧
    ((∃ l ∈ layers, l.bounds.lbrt ≠ bounds.lbrt) →
      ∃ msg, mkSheetOverlay layers bounds = .error msg) ∧
    ((∀ l ∈ layers, l.bounds.lbrt = bounds.lbrt) →
      mkSheetOverlay layers bounds
        = .ok { bounds := bounds, data := layers }) := by
  refine ⟨?_, ?_, ?_, ?_⟩
  · intro h; simp [overlayAdd, h]
  · intro h; simp [overlayAdd, h]
  · intro h
    have := overlaySet_error_of_bad bounds [] layers h
    simpa [mkSheetOverlay, overlaySet] using this
  · intro h
    have := overlaySet_ok_of_all bounds [] layers h
    simpa [mkSheetOverlay, overlaySet] using this

theorem C6_witness :
    overlayAdd ⟨⟨0, 0, 1, 1⟩, []⟩ ⟨5, ⟨0, 0, 2, 1⟩⟩
      = .error "Layer must have same bounds as SheetOverlay" ∧
    overlayAdd ⟨⟨0, 0, 1, 1⟩, []⟩ ⟨5, ⟨0, 0, 1, 1⟩⟩
      = .ok { bounds := ⟨0, 0, 1, 1⟩, data := [] ++ [⟨5, ⟨0, 0, 1, 1⟩⟩] } ∧
    mkSheetOverlay [⟨5, ⟨0, 0, 1, 1⟩⟩] ⟨0, 0, 1, 1⟩
      = .ok { bounds := ⟨0, 0, 1, 1⟩, data := [⟨5, ⟨0, 0, 1, 1⟩⟩] } :=
  ⟨(C6_overlay_bounds_checked ⟨⟨0, 0, 1, 1⟩, []⟩ ⟨5, ⟨0, 0, 2, 1⟩⟩ []
      ⟨0, 0, 1, 1⟩).1 (by decide),
   (C6_overlay_bounds_checked ⟨⟨0, 0, 1, 1⟩, []⟩ ⟨5, ⟨0, 0, 1, 1⟩⟩ []
      ⟨0, 0, 1, 1⟩).2.1 (by decide),
   (C6_overlay_bounds_checked ⟨⟨0, 0, 1, 1⟩, []⟩ ⟨5, ⟨0, 0, 1, 1⟩⟩
      [⟨5, ⟨0, 0, 1, 1⟩⟩] ⟨0, 0, 1, 1⟩).2.2.2 (by decide)⟩

theorem stackAdd_ok_inv (s s2 : SheetStack) (k : Nat) (e : SElem)
    (hinv : stackInv s) (h : stackAdd s k e = .ok s2) : stackInv s2 := by
  cases hb : s.bounds with
  | none =>
    have hempty : s.items = [] := by
      cases hitems : s.items with
      | nil => rfl
      | cons kv tl =>
        rcases (hinv kv (by rw [hitems]; simp)).2 with ⟨b, hb2, _⟩
        rw [hb] at hb2
        cases hb2
    have htyp : stackType s = none := by simp [stackType, hempty]
    simp only [stackAdd, hb, htyp, hempty] at h
    rw [if_neg (by simp), if_neg (by simp)] at h
    injection h with h2
    subst h2
    intro kv hkv
    simp only [List.nil_append, List.mem_singleton] at hkv
    subst hkv
    constructor
    · exact ⟨e.tag, by simp [stackType], rfl⟩
    · exact ⟨e.bounds, rfl, rfl⟩
  | some b =>
    by_cases hlb : e.bounds.lbrt = b.lbrt
    · by_cases htag : (stackType s).isSome ∧ stackType s ≠ some e.tag
      · simp [stackAdd, hb, hlb, htag] at h
      · simp only [stackAdd, hb] at h
        rw [if_neg (not_not_intro hlb), if_neg htag] at h
        injection h with h2
        subst h2
        intro kv hkv
        rcases List.mem_append.mp hkv with hold | hnew
        · have hkvinv := hinv kv hold
          have hnonempty : s.items ≠ [] := by
            intro hc
            rw [hc] at hold
            simp at hold
          have hsome : (stackType s).isSome := by
            simp only [stackType, Option.isSome_map]
            simpa [List.getLast?_isSome] using hnonempty
          have hteq : stackType s = some e.tag := by
            by_contra hc
            exact htag ⟨hsome, hc⟩
          constructor
          · rcases hkvinv.1 with ⟨t, ht, htt⟩
            refine ⟨e.tag, ?_, ?_⟩
            · simp [stackType, List.getLast?_concat]
            · rw [ht] at hteq
              injection hteq with h3
              rw [htt, h3]
          · rcases hkvinv.2 with ⟨b2, hb2, hlb2⟩
            rw [hb] at hb2
            injection hb2 with h3
            subst h3
            exact ⟨b, rfl, hlb2⟩
        · simp only [List.mem_singleton] at hnew
          subst hnew
          constructor
          · exact ⟨e.tag, by simp [stackType, List.getLast?_concat], rfl⟩
          · exact ⟨b, rfl, hlb⟩
    · have hne : e.bounds.lbrt ≠ b.lbrt := hlb
      simp [stackAdd, hb, hne] at h

theorem stackAddAll_ok_inv (ops : List (Nat × SElem)) (s s2 : SheetStack)
    (hinv : stackInv s) (h : stackAddAll s ops = .ok s2) : stackInv s2 := by
  induction ops generalizing s with
  | nil =>
    rw [stackAddAll, List.foldlM_nil] at h
    injection h with h2
    subst h2
    exact hinv
  | cons op ops ih =>
    rw [stackAddAll, List.foldlM_cons] at h
    cases hadd : stackAdd s op.1 op.2 with
    | error msg =>
      rw [hadd] at h
      exact absurd h (fun hc => Except.noConfusion hc)
    | ok s1 =>
      rw [hadd] at h
      exact ih s1 (stackAdd_ok_inv s s1 op.1 op.2 hinv hadd) h

/-- C7: in every stack state reachable by insertions from the empty
stack, all entries share one type tag and one lbrt tuple (the stack
invariant), and any further insertion whose bounds differ from the stack
bounds or whose type differs from the stack type raises an error. -/
theorem C7_stack_homogeneity (ops : List (Nat × SElem)) (s : SheetStack)
    (k : Nat) (e : SElem)
    (hreach : stackAddAll emptyStack ops = .ok s) :
    stackInv s ∧
    (((∃ b, s.bounds = some b ∧ e.bounds.lbrt ≠ b.lbrt) ∨
      (∃ t, stackType s = some t ∧ e.tag ≠ t)) →
      ∃ msg, stackAdd s k e = .error msg) := by
  have hinv : stackInv s := by
    refine stackAddAll_ok_inv ops emptyStack s ?_ hreach
    intro kv hkv
    simp [emptyStack] at hkv
  refine ⟨hinv, ?_⟩
  intro hcase
  cases hb : s.bounds with
  | none =>
    rcases hcase with ⟨b, hb2, _⟩ | ⟨t, ht, _⟩
    · rw [hb] at hb2; cases hb2
    · cases hitems : s.items with
      | nil => rw [stackType, hitems] at ht; simp at ht
      | cons kv tl =>
        rcases (hinv kv (by rw [hitems]; simp)).2 with ⟨b2, hb2, _⟩
        rw [hb] at hb2
        cases hb2
  | some b =>
    by_cases hlb : e.bounds.lbrt = b.lbrt
    · rcases hcase with ⟨b2, hb2, hne⟩ | ⟨t, ht, hne⟩
      · rw [hb] at hb2
        injection hb2 with h3
        subst h3
        exact absurd hlb hne
      · refine ⟨"SheetStack must only contain one type of SheetLayer.", ?_⟩
        simp only [stackAdd, hb]
        rw [if_neg (not_not_intro hlb), if_pos ⟨by simp [ht], by
          rw [ht]
          intro hc
          injection hc with h4
          exact hne h4.symm⟩]
    · refine ⟨"All SheetLayer elements must have matching bounds.", ?_⟩
      simp only [stackAdd, hb]
      rw [if_pos hlb]

theorem C7_witness :
    stackInv ⟨some ⟨0, 0, 1, 1⟩, [(0, ⟨1, ⟨0, 0, 1, 1⟩⟩)]⟩ ∧
    (((∃ b, (⟨some ⟨0, 0, 1, 1⟩,
          [(0, ⟨1, ⟨0, 0, 1, 1⟩⟩)]⟩ : SheetStack).bounds = some b ∧
        (⟨2, ⟨0, 0, 1, 1⟩⟩ : SElem).bounds.lbrt ≠ b.lbrt) ∨
      (∃ t, stackType ⟨some ⟨0, 0, 1, 1⟩,
          [(0, ⟨1, ⟨0, 0, 1, 1⟩⟩)]⟩ = some t ∧
        (⟨2, ⟨0, 0, 1, 1⟩⟩ : SElem).tag ≠ t)) →
      ∃ msg, stackAdd ⟨some ⟨0, 0, 1, 1⟩, [(0, ⟨1, ⟨0, 0, 1, 1⟩⟩)]⟩ 1
        ⟨2, ⟨0, 0, 1, 1⟩⟩ = .error msg) :=
  C7_stack_homogeneity [(0, ⟨1, ⟨0, 0, 1, 1⟩⟩)]
    ⟨some ⟨0, 0, 1, 1⟩, [(0, ⟨1, ⟨0, 0, 1, 1⟩⟩)]⟩ 1 ⟨2, ⟨0, 0, 1, 1⟩⟩
    (by rfl)

theorem getD_set_ne (l : List OvData) (i j : Nat) (a : OvData)
    (hij : i ≠ j) : (l.set j a).getD i [] = l.getD i [] := by
  simp [List.getD_eq_getElem?_getD, List.getElem?_set_ne (Ne.symm hij)]

theorem foldl_collapse_fresh (fn : OvData → OvData) (l : List Nat)
    (L : Nat) :
    ∀ (h : List OvData) (i : Nat), (∀ j ∈ l, L ≤ j) → i < L →
      (l.foldl (fun acc j => collapseOverlay fn acc j) h).getD i []
        = h.getD i [] := by
  induction l with
  | nil => intro h i _ _; rfl
  | cons j js ih =>
    intro h i hfresh hi
    rw [List.foldl_cons]
    rw [ih (collapseOverlay fn h j) i
      (fun x hx => hfresh x (by simp [hx])) hi]
    have hj : L ≤ j := hfresh j (by simp)
    exact getD_set_ne h i j _ (by omega)

/-- C5: the channel reduction step never mutates the input stack: every
overlay object referenced by the input stack holds the same data after
the call as before; with no registered channel operations the step
returns the input stack and heap unchanged; and in the mutating case the
result stack references only freshly allocated copies. -/
theorem C5_channel_reduction_preserves_input (iso : Bool)
    (keys : List String) (fn : OvData → OvData) (heap : List OvData)
    (ids : List Nat) :
    (∀ i, i < heap.length →
      ((collapseChannels iso keys fn heap ids).1).getD i []
        = heap.getD i []) ∧
    (keys = [] → collapseChannels iso keys fn heap ids = (heap, ids)) ∧
    (iso = true → keys ≠ [] →
      ∀ j ∈ (collapseChannels iso keys fn heap ids).2, heap.length ≤ j) := by
  refine ⟨?_, ?_, ?_⟩
  · intro i hi
    by_cases hiso : iso
    · by_cases hk : keys.isEmpty
      · simp [collapseChannels, hiso, hk]
      · simp only [collapseChannels, hiso, Bool.not_true, Bool.false_eq_true,
          if_false, hk, if_true]
        rw [foldl_collapse_fresh fn _ heap.length _ i ?_ hi]
        · simp [deepcopyStack, List.getD_eq_getElem?_getD,
            List.getElem?_append_left hi]
        · intro j hj
          simp only [deepcopyStack, List.mem_map, List.mem_range] at hj
          omega
    · simp [collapseChannels, hiso]
  · intro hk
    cases iso <;> simp [collapseChannels, hk]
  · intro hiso hk j hj
    have hke : keys.isEmpty = false := by
      cases keys with
      | nil => exact absurd rfl hk
      | cons a as => rfl
    rw [hiso] at hj
    simp only [collapseChannels, hke, Bool.not_true, Bool.false_eq_true,
      if_false] at hj
    simp only [deepcopyStack, List.mem_map, List.mem_range] at hj
    omega

theorem C5_witness :
    ((collapseChannels true ["hcs"] (fun l => 9 :: l)
        [[1], [2]] [0, 1]).1).getD 0 []
      = ([[1], [2]] : List OvData).getD 0 [] :=
  (C5_channel_reduction_preserves_input true ["hcs"] (fun l => 9 :: l)
    [[1], [2]] [0, 1]).1 0 (by decide)

theorem foldl_min_le_self (xs : List ℚ) (a : ℚ) : xs.foldl min a ≤ a := by
  induction xs generalizing a with
  | nil => exact le_refl a
  | cons x xs ih =>
    rw [List.foldl_cons]
    exact le_trans (ih (min a x)) (min_le_left a x)

theorem foldl_min_le_mem (xs : List ℚ) (x : ℚ) :
    ∀ (a : ℚ), x ∈ xs → xs.foldl min a ≤ x := by
  induction xs with
  | nil => intro a hx; cases hx
  | cons y ys ih =>
    intro a hx
    rw [List.foldl_cons]
    rcases List.mem_cons.mp hx with rfl | h2
    · exact le_trans (foldl_min_le_self ys (min a x)) (min_le_right a x)
    · exact ih (min a y) h2

theorem self_le_foldl_max (xs : List ℚ) (a : ℚ) : a ≤ xs.foldl max a := by
  induction xs generalizing a with
  | nil => exact le_refl a
  | cons x xs ih =>
    rw [List.foldl_cons]
    exact le_trans (le_max_left a x) (ih (max a x))

theorem mem_le_foldl_max (xs : List ℚ) (x : ℚ) :
    ∀ (a : ℚ), x ∈ xs → x ≤ xs.foldl max a := by
  induction xs with
  | nil => intro a hx; cases hx
  | cons y ys ih =>
    intro a hx
    rw [List.foldl_cons]
    rcases List.mem_cons.mp hx with rfl | h2
    · exact le_trans (le_max_right a x) (self_le_foldl_max ys (max a x))
    · exact ih (max a y) h2

theorem npMin_le_of_mem (m : NpArray) (x : ℚ) (hx : x ∈ m.flatten) :
    npMin m ≤ x := by
  unfold npMin
  cases hfl : m.flatten with
  | nil => rw [hfl] at hx; cases hx
  | cons z zs =>
    rw [hfl] at hx
    rcases List.mem_cons.mp hx with rfl | h2
    · exact foldl_min_le_self zs x
    · exact foldl_min_le_mem zs x z h2

theorem le_npMax_of_mem (m : NpArray) (x : ℚ) (hx : x ∈ m.flatten) :
    x ≤ npMax m := by
  unfold npMax
  cases hfl : m.flatten with
  | nil => rw [hfl] at hx; cases hx
  | cons z zs =>
    rw [hfl] at hx
    rcases List.mem_cons.mp hx with rfl | h2
    · exact self_le_foldl_max zs x
    · exact mem_le_foldl_max zs x z h2

theorem pyIndex_cons_zero {α : Type} (a : α) (l : List α) :
    pyIndex (a :: l) 0 = .ok a := by
  rw [pyIndex_ok_of_lt (a :: l) 0 (by omega) (by simp)]
  rfl

theorem pyIndex_cons_one {α : Type} (a b : α) (l : List α) :
    pyIndex (a :: b :: l) 1 = .ok b := by
  rw [pyIndex_ok_of_lt (a :: b :: l) 1 (by omega) (by simp)]
  rfl

theorem map_const_zip_replicate {α : Type} (l : List α) (a b : ℚ) :
    (l.map (fun _ => a)).zip (List.replicate l.length b)
      = l.map (fun _ => (a, b)) := by
  induction l with
  | nil => rfl
  | cons x xs ih =>
    simp only [List.map_cons, List.length_cons,
      List.replicate_succ, List.zip_cons_cons, ih]

theorem hsv_eval_zero : hsv_to_rgb 0 1 1 = (1, 0, 0) := by
  norm_num [hsv_to_rgb, truncQ, ratFloor, ratCeil]

theorem hsv_eval_one : hsv_to_rgb 1 1 1 = (1, 0, 0) := by
  norm_num [hsv_to_rgb, truncQ, ratFloor, ratCeil]

theorem hsv_eval_half : hsv_to_rgb (1/2) 1 1 = (0, 1, 1) := by
  norm_num [hsv_to_rgb, truncQ, ratFloor, ratCeil]

theorem zip_ones_replicate (cols : Nat) (rows : List (List ℚ))
    (hrect : ∀ row ∈ rows, row.length = cols) :
    List.zipWith (fun (sr vr : List ℚ) => sr.zip vr)
        (rows.map (fun row => row.map (fun _ => (1 : ℚ))))
        (List.replicate rows.length (List.replicate cols (1 : ℚ)))
      = rows.map (fun row => row.map (fun _ => ((1 : ℚ), (1 : ℚ)))) := by
  induction rows with
  | nil => rfl
  | cons r rs ih =>
    simp only [List.map_cons, List.length_cons, List.replicate_succ,
      List.zipWith_cons_cons]
    rw [ih (fun row h => hrect row (by simp [h]))]
    rw [show cols = r.length from (hrect r (by simp)).symm]
    rw [map_const_zip_replicate]

theorem matHsvToRgb_ones (m : NpArray) (cols : Nat)
    (hrect : ∀ row ∈ m, row.length = cols) :
    matHsvToRgb m (m.map (fun row => row.map (fun _ => (1 : ℚ))))
        (List.replicate m.length (List.replicate cols (1 : ℚ)))
      = m.map (fun row => row.map (fun x => hsv_to_rgb x 1 1)) := by
  unfold matHsvToRgb
  rw [zip_ones_replicate cols m hrect]
  rw [List.zipWith_map_right, List.zipWith_same]
  apply List.map_congr_left
  intro row hrow
  rw [List.zipWith_map_right, List.zipWith_same]

/-- C4: the claim states that for a two-layer overlay with hue values in
the unit interval, confidence identically 1, default multipliers and
flipSC false, the HCS output equals the element-wise HSV to RGB
conversion of the hue values at full saturation and value.  On the hue
layer [[0, 1/2]] with confidence [[1, 1]], the code first
range-normalizes the hue channel, stretching [[0, 1/2]] to [[0, 1]], so
the output pixel for hue 1/2 is (1, 0, 0) although the conversion of the
raw hue 1/2 is (0, 1, 1). -/
theorem C4_hcs_not_raw_hue :
    hcsProcess ⟨1, 1, false⟩
        [mkSheetView (some [[0, 1/2]]) ⟨0, 0, 1, 1⟩ none "" "" "" none,
         mkSheetView (some [[1, 1]]) ⟨0, 0, 1, 1⟩ none "" "" "" none]
      = .ok [[(1, 0, 0), (1, 0, 0)]] ∧
    [[hsv_to_rgb 0 1 1, hsv_to_rgb (1/2) 1 1]] = [[(1, 0, 0), (0, 1, 1)]] := by
  constructor
  · norm_num [hcsProcess, mkSheetView, npShape, pyIndex_cons_zero,
      pyIndex_cons_one, sheetViewN, sheetViewNormalize, npMin, npMax, npClip,
      npScale, npOnes, clipQ, matHsvToRgb, List.replicate_succ,
      List.replicate_zero, hsv_eval_zero, hsv_eval_one]
  · rw [hsv_eval_zero, hsv_eval_half]

/-- C4 (amended): for a two-layer overlay whose hue layer has no cyclic
range and attains minimum 0 and maximum 1 (so that range normalization
is the identity), whose confidence layer is identically 1 with the same
shape, with default multipliers 1.0 and flipSC false, the HCS output
equals the element-wise HSV to RGB conversion of the hue values at full
saturation and full value. -/
theorem C4_hcs_pure_hue_normalized (hue conf : SheetView)
    (hcyc : hue.cyclic_range = none)
    (hconf : conf.data = hue.data.map (fun row => row.map (fun _ => (1 : ℚ))))
    (hrect : ∀ row ∈ hue.data, row.length = (npShape hue.data).2)
    (hmin : npMin hue.data = 0) (hmax : npMax hue.data = 1) :
    hcsProcess ⟨1, 1, false⟩ [hue, conf]
      = .ok (hue.data.map (fun row => row.map (fun x => hsv_to_rgb x 1 1))) := by
  have hbound : ∀ x ∈ hue.data.flatten, 0 ≤ x ∧ x ≤ 1 := by
    intro x hx
    exact ⟨hmin ▸ npMin_le_of_mem hue.data x hx,
           hmax ▸ le_npMax_of_mem hue.data x hx⟩
  have hN : (sheetViewN hue).data = hue.data := by
    simp only [sheetViewN, sheetViewNormalize, hcyc, mkSheetView, hmin, hmax]
    rw [show (fun x : ℚ => ((x - 0) / (1 - 0)) * |(1 : ℚ) - 0| + 0)
        = fun x : ℚ => x from funext fun x => by norm_num]
    simp [List.map_id']
  have hclip : npClip hue.data 0 1 = hue.data := by
    unfold npClip
    rw [show hue.data.map (List.map (clipQ 0 1))
        = hue.data.map (fun row => row) from List.map_congr_left ?_]
    · simp [List.map_id']
    · intro row hrow
      rw [show List.map (clipQ 0 1) row = row.map (fun x => x) from
        List.map_congr_left ?_]
      · simp [List.map_id']
      · intro x hx
        have hb := hbound x (List.mem_flatten.mpr ⟨row, hrow, hx⟩)
        simp only [clipQ]
        rw [max_eq_right hb.1, min_eq_right hb.2]
  have hshape : npShape conf.data = npShape hue.data := by
    rw [hconf]
    cases hd : hue.data with
    | nil => rfl
    | cons r rs => simp [npShape]
  have hs : npClip (npScale conf.data 1) 0 1
      = hue.data.map (fun row => row.map (fun _ => (1 : ℚ))) := by
    rw [show npScale conf.data 1 = conf.data from by
      simp [npScale, List.map_id']]
    rw [hconf]
    unfold npClip
    simp only [List.map_map]
    apply List.map_congr_left
    intro row hrow
    simp only [Function.comp]
    rw [List.map_map]
    apply List.map_congr_left
    intro x hx
    norm_num [clipQ, Function.comp]
  have hv : npClip (npScale (npOnes (npShape hue.data)) 1) 0 1
      = npOnes (npShape hue.data) := by
    unfold npOnes npScale npClip
    simp only [List.map_replicate]
    norm_num [clipQ]
  have hnot3 : ¬ ([hue, conf].length = 3) := by simp
  have hshapeok : ¬ (npShape hue.data ≠ npShape conf.data) :=
    not_not_intro hshape.symm
  simp only [hcsProcess, pyIndex_cons_zero, pyIndex_cons_one,
    if_neg hnot3, if_neg hshapeok, Bool.false_eq_true, if_false]
  rw [hN, hclip, hs, hv]
  rw [show npOnes (npShape hue.data)
      = List.replicate hue.data.length (List.replicate (npShape hue.data).2 1)
    from by simp [npOnes, npShape]]
  rw [matHsvToRgb_ones hue.data (npShape hue.data).2 hrect]

theorem C4_hcs_witness :
    hcsProcess ⟨1, 1, false⟩
        [mkSheetView (some [[0, 1]]) ⟨0, 0, 1, 1⟩ none "" "" "" none,
         mkSheetView (some [[1, 1]]) ⟨0, 0, 1, 1⟩ none "" "" "" none]
      = .ok ((mkSheetView (some [[0, 1]]) ⟨0, 0, 1, 1⟩ none "" "" ""
          none).data.map (fun row => row.map (fun x => hsv_to_rgb x 1 1))) :=
  C4_hcs_pure_hue_normalized
    (mkSheetView (some [[0, 1]]) ⟨0, 0, 1, 1⟩ none "" "" "" none)
    (mkSheetView (some [[1, 1]]) ⟨0, 0, 1, 1⟩ none "" "" "" none)
    (by decide) (by decide) (by decide) (by decide) (by decide)
